import Mathlib

/-!
Shallow embedding of `sub_square_implementation.ipynb`.

The notebook defines:
* `Square` — a frozen dataclass wrapping a validated NumPy array
  (`_valid_matrix` checks: ndarray type, 2-dimensionality, squareness,
  binary entries, in that order);
* `SlidingWindowSearch._get_rolling_windows` — an iterator over all
  `size × size` sub-matrices of the grid, row-major by anchor, raising
  `ValueError` for `size > n` or `size < 1`;
* `SlidingWindowSearch._is_sub_square` — the all-ones-perimeter test,
  built from slices `[0, :]`, `[-1, :]`, `[1:-1, 0]`, `[1:-1, -1]`;
* `SlidingWindowSearch.find_largest_sub_square` — the descending-size
  search, raising `TypeError` on non-`Square` input and
  `SubSquareDNEError` when no placement qualifies.

Matrices are embedded as `List (List Int)` (row-major rows of entries);
a NumPy ndarray is a shape vector plus its flat row-major data, so that
the `ndim`/squareness validation on arbitrary-rank input can be stated.
Python slicing `l[a:b]` with `0 ≤ a ≤ b ≤ len` is `(l.drop a).take (b-a)`,
and `l[1:-1]` is `(l.drop 1).dropLast` (both agree with Python's
clamping/empty-slice behaviour for the lengths that occur here).
-/

namespace SubSquareImpl

instance {ε α : Type} [DecidableEq ε] [DecidableEq α] : DecidableEq (Except ε α) := fun x y =>
  match x, y with
  | .ok a, .ok b =>
    if h : a = b then .isTrue (congrArg Except.ok h)
    else .isFalse fun hc => h (Except.ok.inj hc)
  | .error a, .error b =>
    if h : a = b then .isTrue (congrArg Except.error h)
    else .isFalse fun hc => h (Except.error.inj hc)
  | .ok _, .error _ => .isFalse fun hc => Except.noConfusion hc
  | .error _, .ok _ => .isFalse fun hc => Except.noConfusion hc

/-- Row-major matrix of integer entries, the value content of a 2-d view. -/
abbrev Mat := List (List Int)

/-- A NumPy ndarray: its shape and its flat row-major data.
`ndim` is the length of the shape vector. -/
structure NDArray where
  shape : List Nat
  data : List Int
deriving DecidableEq, Repr

/-- Number of dimensions, NumPy's `ndim`. -/
def NDArray.ndim (a : NDArray) : Nat := a.shape.length

/-- NumPy's structural invariant: the flat buffer has exactly
`prod shape` elements. Every real ndarray satisfies this. -/
def NDArray.wf (a : NDArray) : Bool :=
  a.data.length == a.shape.foldr (· * ·) 1

/-- Row `i` of a 2-d ndarray: `cols` consecutive entries of the flat data. -/
def NDArray.row (a : NDArray) (i : Nat) : List Int :=
  (a.data.drop (i * a.shape.getD 1 0)).take (a.shape.getD 1 0)

/-- The rows of a 2-d ndarray as a `Mat`. -/
def NDArray.toMat (a : NDArray) : Mat :=
  (List.range (a.shape.getD 0 0)).map a.row

/-- A Python value that may be passed where a matrix is expected:
`None`, a nested Python list, or an actual ndarray.  Mirrors the
dynamically-typed argument of `Square.__init__`. -/
inductive PyVal where
  | pyNone : PyVal
  | pyList (rows : List (List Int)) : PyVal
  | array (a : NDArray) : PyVal
deriving DecidableEq

/-- The exception classes the notebook raises. `typeError` corresponds
to Python `TypeError`, `valueError msg` to `ValueError(msg)`,
`subSquareDNE m` to `SubSquareDNEError` (whose message embeds the
grid's matrix, which we carry structurally). -/
inductive PyError where
  | typeError : PyError
  | valueError (msg : String) : PyError
  | subSquareDNE (m : NDArray) : PyError
deriving DecidableEq

/-- True exactly when the error is a Python `ValueError`. -/
def PyError.isValueError : PyError → Bool
  | .valueError _ => true
  | _ => false

/-- The frozen dataclass `Square`: a wrapper around its ndarray. -/
structure Square where
  matrix : NDArray
deriving DecidableEq

/-- `Square.__post_init__` / `Square._valid_matrix`: the checks in source
order — ndarray type (`TypeError`), `ndim == 2` (`ValueError`),
`rows == cols` (`ValueError`), all entries in `{0, 1}` (`ValueError`). -/
def mkSquare : PyVal → Except PyError Square
  | .array a =>
    if a.ndim ≠ 2 then
      .error (.valueError "Matrix must be 2-dimensional.")
    else if a.shape.getD 0 0 ≠ a.shape.getD 1 0 then
      .error (.valueError "Matrix must be square (equal number of rows and columns).")
    else if ¬ (a.data.all fun x => x == 0 || x == 1) then
      .error (.valueError "Matrix elements must be either 0s or 1s.")
    else
      .ok ⟨a⟩
  | _ => .error .typeError

/-- `Square.size`: `self.matrix.shape[0]`. -/
def Square.size (sq : Square) : Nat := sq.matrix.shape.getD 0 0

/-- A `Square` as produced by a successful construction from a real
ndarray: the validation checks pass and the buffer matches the shape. -/
def Square.valid (sq : Square) : Bool :=
  sq.matrix.wf &&
  sq.matrix.ndim == 2 &&
  sq.matrix.shape.getD 0 0 == sq.matrix.shape.getD 1 0 &&
  sq.matrix.data.all (fun x => x == 0 || x == 1)

/-- The slice `matrix[r:r+s, c:c+s]` of a row-major matrix. -/
def subMat (m : Mat) (r c s : Nat) : Mat :=
  ((m.drop r).take s).map fun row => (row.drop c).take s

/-- `SlidingWindowSearch._get_rolling_windows`: raises `ValueError` when
`sub_square_size > n` or `< 1`; otherwise yields
`square.matrix[r:r+s, c:c+s]` for `r` then `c` ranging over
`range(n - s + 1)`, row-major. -/
def getRollingWindows (sq : Square) (s : Nat) : Except PyError (List Mat) :=
  let n := sq.size
  if s > n || s < 1 then
    .error (.valueError
      "Sub Square Size must be less than or equal to the size of the square and greater than 0")
  else
    .ok ((List.range (n - s + 1)).flatMap fun r =>
      (List.range (n - s + 1)).map fun c => subMat sq.matrix.toMat r c s)

/-- `SlidingWindowSearch._is_sub_square`: concatenate `sub[0, :]`,
`sub[-1, :]`, `sub[1:-1, 0]`, `sub[1:-1, -1]` and test all `== 1`. -/
def isSubSquare (sub : Mat) : Bool :=
  let topRow := sub.headD []
  let bottomRow := sub.getLastD []
  let leftColumn := ((sub.drop 1).dropLast).map fun row => row.headD 0
  let rightColumn := ((sub.drop 1).dropLast).map fun row => row.getLastD 0
  (topRow ++ bottomRow ++ leftColumn ++ rightColumn).all fun x => x == 1

/-- The `for size in range(m, 0, -1)` loop of `find_largest_sub_square`,
with the early `return` on the first window passing `_is_sub_square`.
The counter is the current size; `0` means the loop is exhausted. -/
def searchSizes (sq : Square) : Nat → Except PyError (Option (Mat × Nat))
  | 0 => .ok none
  | s + 1 =>
    match getRollingWindows sq (s + 1) with
    | .error e => .error e
    | .ok ws =>
      match ws.find? isSubSquare with
      | some w => .ok (some (w, s + 1))
      | none => searchSizes sq s

/-- The argument of `find_largest_sub_square`: either an actual `Square`
or any other Python value (e.g. a raw ndarray), which the `isinstance`
guard rejects. -/
inductive SolverInput where
  | square (sq : Square) : SolverInput
  | notSquare (v : PyVal) : SolverInput

/-- `SlidingWindowSearch.find_largest_sub_square`: `TypeError` unless the
argument is a `Square`; otherwise run sizes `m` down to `1` and either
return the first hit `(window, size)` or raise `SubSquareDNEError`
carrying the matrix. -/
def findLargestSubSquare : SolverInput → Except PyError (Mat × Nat)
  | .notSquare _ => .error .typeError
  | .square sq =>
    match searchSizes sq sq.size with
    | .error e => .error e
    | .ok (some (w, s)) => .ok (w, s)
    | .ok none => .error (.subSquareDNE sq.matrix)

/-- Cell `(i, j)` of a row-major matrix. -/
def cell (m : Mat) (i j : Nat) : Int := (m.getD i []).getD j 0

/-- The placement of size `s` anchored at `(r, c)` has an all-ones
perimeter in grid `sq`. -/
def qualifies (sq : Square) (s r c : Nat) : Bool :=
  isSubSquare (subMat sq.matrix.toMat r c s)

/-- The example grid `[[0,1,1],[0,1,1],[1,1,1]]` of the integration test. -/
def exampleArray : NDArray := ⟨[3, 3], [0, 1, 1, 0, 1, 1, 1, 1, 1]⟩

/-- The example grid wrapped as a `Square`. -/
def exampleSquare : Square := ⟨exampleArray⟩

/-- The all-zero 3×3 grid of the no-match test. -/
def zeroArray : NDArray := ⟨[3, 3], [0, 0, 0, 0, 0, 0, 0, 0, 0]⟩

/-- The all-zero grid wrapped as a `Square`. -/
def zeroSquare : Square := ⟨zeroArray⟩

/-! ### Generic list lemmas -/

theorem all_one_iff_getD (l : List Int) :
    (l.all fun x => x == 1) = true ↔ ∀ j, j < l.length → l.getD j 0 = 1 := by
  induction l with
  | nil => simp
  | cons a t ih =>
    simp only [List.all_cons, Bool.and_eq_true, beq_iff_eq, ih]
    constructor
    · rintro ⟨ha, ht⟩ j hj
      cases j with
      | zero => simpa using ha
      | succ j => simpa using ht j (by simpa using hj)
    · intro h
      refine ⟨by simpa using h 0 (by simp), fun j hj => ?_⟩
      simpa using h (j + 1) (by simpa using hj)

theorem headD_eq_getD {α : Type} (l : List α) (d : α) : l.headD d = l.getD 0 d := by
  cases l <;> rfl

theorem getLastD_eq_getD {α : Type} :
    ∀ (l : List α) (d : α), l.getLastD d = l.getD (l.length - 1) d
  | [], _ => rfl
  | [a], _ => rfl
  | a :: b :: t, d => by
    rw [List.getLastD_cons, getLastD_eq_getD (b :: t) a]
    have hlen : (b :: t).length - 1 < (b :: t).length := by simp
    rw [List.getD_eq_getElem _ _ hlen]
    have : (a :: b :: t).length - 1 = ((b :: t).length - 1) + 1 := by simp
    rw [this, List.getD_cons_succ, List.getD_eq_getElem _ _ hlen]

theorem getD_map_of_lt {α β : Type} (f : α → β) (l : List α) (i : Nat) (d : β) (d' : α)
    (h : i < l.length) : (l.map f).getD i d = f (l.getD i d') := by
  rw [List.getD_eq_getElem _ _ (by simpa using h), List.getD_eq_getElem _ _ h,
    List.getElem_map]

theorem find?_some_getD {α : Type} (p : α → Bool) (d : α) :
    ∀ (l : List α) (x : α), l.find? p = some x →
      ∃ i, i < l.length ∧ l.getD i d = x ∧ p x = true ∧
        ∀ j, j < i → p (l.getD j d) = false := by
  intro l
  induction l with
  | nil => intro x h; simp at h
  | cons a t ih =>
    intro x h
    by_cases hp : p a = true
    · rw [List.find?_cons_of_pos _ hp] at h
      obtain rfl : a = x := by injection h
      exact ⟨0, by simp, by simp, hp, fun j hj => absurd hj (by omega)⟩
    · rw [List.find?_cons_of_neg _ hp] at h
      obtain ⟨i, hi, hg, hx, hjs⟩ := ih x h
      refine ⟨i + 1, by simpa using hi, by simpa using hg, hx, fun j hj => ?_⟩
      cases j with
      | zero => simpa using eq_false_of_ne_true hp
      | succ j => simpa using hjs j (by omega)

theorem length_flatMap_const {α : Type} (f : Nat → List α) (k : Nat)
    (hf : ∀ r, (f r).length = k) :
    ∀ (m a : Nat), ((List.range' a m).flatMap f).length = m * k := by
  intro m
  induction m with
  | zero => intro a; simp
  | succ m ih =>
    intro a
    rw [List.range'_succ, List.flatMap_cons, List.length_append, hf, ih (a + 1),
      Nat.succ_mul, Nat.add_comm]

theorem getD_flatMap_range' {α : Type} (f : Nat → List α) (k : Nat) (d : α)
    (hf : ∀ r, (f r).length = k) :
    ∀ (m a r c : Nat), r < m → c < k →
      ((List.range' a m).flatMap f).getD (r * k + c) d = (f (a + r)).getD c d := by
  intro m
  induction m with
  | zero => intro a r c hr _; omega
  | succ m ih =>
    intro a r c hr hc
    rw [List.range'_succ, List.flatMap_cons]
    cases r with
    | zero =>
      rw [Nat.zero_mul, Nat.zero_add, Nat.add_zero]
      exact List.getD_append _ _ _ _ (by rw [hf]; exact hc)
    | succ r =>
      have hk : (f a).length ≤ (r + 1) * k + c := by
        rw [hf, Nat.succ_mul]; omega
      rw [List.getD_append_right _ _ _ _ hk, hf]
      have : (r + 1) * k + c - k = r * k + c := by rw [Nat.succ_mul]; omega
      rw [this]
      have := ih (a + 1) r c (by omega) hc
      rwa [show a + 1 + r = a + (r + 1) by omega] at this

/-! ### Anchors and windows -/

/-- The anchor pairs `(r, c)` in the order the two nested `for` loops of
`_get_rolling_windows` produce them: row-major over `range k × range k`. -/
def anchors (k : Nat) : List (Nat × Nat) :=
  (List.range k).flatMap fun r => (List.range k).map fun c => (r, c)

theorem length_anchors (k : Nat) : (anchors k).length = k * k := by
  rw [anchors, List.range_eq_range']
  exact length_flatMap_const _ k (fun r => by simp) k 0

theorem mem_anchors {k : Nat} {p : Nat × Nat} :
    p ∈ anchors k ↔ p.1 < k ∧ p.2 < k := by
  rcases p with ⟨r, c⟩
  simp only [anchors, List.mem_flatMap, List.mem_map, List.mem_range]
  constructor
  · rintro ⟨a, ha, b, hb, hab⟩
    obtain ⟨rfl, rfl⟩ : a = r ∧ b = c := by
      constructor <;> [exact (Prod.mk.inj hab).1; exact (Prod.mk.inj hab).2]
    exact ⟨ha, hb⟩
  · rintro ⟨hr, hc⟩
    exact ⟨r, hr, c, hc, rfl⟩

theorem getD_flatMap_range {α : Type} (f : Nat → List α) (k : Nat) (d : α)
    (hf : ∀ r, (f r).length = k) (m r c : Nat) (hr : r < m) (hc : c < k) :
    ((List.range m).flatMap f).getD (r * k + c) d = (f r).getD c d := by
  rw [List.range_eq_range']
  simpa using getD_flatMap_range' f k d hf m 0 r c hr hc

theorem getD_anchors {k r c : Nat} (hr : r < k) (hc : c < k) :
    (anchors k).getD (r * k + c) (0, 0) = (r, c) := by
  rw [anchors,
    getD_flatMap_range (fun r => (List.range k).map fun c => (r, c)) k (0, 0)
      (fun r => by simp) k r c hr hc]
  rw [getD_map_of_lt _ _ _ _ 0 (by simpa using hc)]
  rw [List.getD_eq_getElem _ _ (by simpa using hc), List.getElem_range]

theorem lex_index_lt {k r c r' c' : Nat} (_hc : c < k) (hc' : c' < k)
    (h : r' < r ∨ (r' = r ∧ c' < c)) : r' * k + c' < r * k + c := by
  rcases h with h | ⟨rfl, h⟩
  · have h1 : (r' + 1) * k ≤ r * k := Nat.mul_le_mul_right k h
    rw [Nat.succ_mul] at h1
    omega
  · omega

/-- The list of windows `_get_rolling_windows` yields for a legal size,
re-expressed as a map over the anchor list. -/
def windows (sq : Square) (s : Nat) : List Mat :=
  (anchors (sq.size - s + 1)).map fun p => subMat sq.matrix.toMat p.1 p.2 s

theorem getRollingWindows_eq_ok (sq : Square) (s : Nat) (h1 : 1 ≤ s) (h2 : s ≤ sq.size) :
    getRollingWindows sq s = .ok (windows sq s) := by
  rw [getRollingWindows]
  rw [if_neg (by simp; omega)]
  congr 1
  simp [windows, anchors, List.map_flatMap, List.map_map, Function.comp_def]

theorem subMat_mem_windows (sq : Square) (s r c : Nat)
    (hr : r < sq.size - s + 1) (hc : c < sq.size - s + 1) :
    subMat sq.matrix.toMat r c s ∈ windows sq s := by
  rw [windows, List.mem_map]
  exact ⟨(r, c), mem_anchors.mpr ⟨hr, hc⟩, rfl⟩

theorem mem_windows_iff {sq : Square} {s : Nat} {w : Mat} :
    w ∈ windows sq s ↔ ∃ r c, r < sq.size - s + 1 ∧ c < sq.size - s + 1 ∧
      w = subMat sq.matrix.toMat r c s := by
  rw [windows, List.mem_map]
  constructor
  · rintro ⟨⟨r, c⟩, hmem, rfl⟩
    obtain ⟨hr, hc⟩ := mem_anchors.mp hmem
    exact ⟨r, c, hr, hc, rfl⟩
  · rintro ⟨r, c, hr, hc, rfl⟩
    exact ⟨(r, c), mem_anchors.mpr ⟨hr, hc⟩, rfl⟩

theorem windows_find?_eq_none_iff {sq : Square} {s : Nat} :
    (windows sq s).find? isSubSquare = none ↔
      ∀ r c, r < sq.size - s + 1 → c < sq.size - s + 1 →
        qualifies sq s r c = false := by
  rw [List.find?_eq_none]
  constructor
  · intro h r c hr hc
    have := h _ (subMat_mem_windows sq s r c hr hc)
    simpa [qualifies] using this
  · intro h w hw
    obtain ⟨r, c, hr, hc, rfl⟩ := mem_windows_iff.mp hw
    simpa [qualifies] using h r c hr hc

theorem find?_anchors_map_some {α : Type} {k : Nat} {p : α → Bool} {g : Nat × Nat → α}
    {x : α} (h : ((anchors k).map g).find? p = some x) :
    ∃ r c, r < k ∧ c < k ∧ x = g (r, c) ∧ p (g (r, c)) = true ∧
      ∀ r' c', r' < k → c' < k → (r' < r ∨ (r' = r ∧ c' < c)) →
        p (g (r', c')) = false := by
  rw [List.find?_map, Option.map_eq_some'] at h
  obtain ⟨pr, hfind, hw⟩ := h
  obtain ⟨i, hi, hgd, hpx, hjs⟩ := find?_some_getD _ (0, 0) _ _ hfind
  rw [length_anchors] at hi
  have hkpos : 0 < k := by
    rcases Nat.eq_zero_or_pos k with h0 | h0
    · subst h0; simp at hi
    · exact h0
  have hdiv : i / k < k := Nat.div_lt_of_lt_mul hi
  have hmod : i % k < k := Nat.mod_lt _ hkpos
  have hidx : i / k * k + i % k = i := by
    rw [Nat.mul_comm]; exact Nat.div_add_mod i k
  have hanch := getD_anchors hdiv hmod
  rw [hidx] at hanch
  have hpr : pr = (i / k, i % k) := by rw [← hgd, hanch]
  refine ⟨i / k, i % k, hdiv, hmod, ?_, ?_, ?_⟩
  · rw [← hw, hpr]
  · have := hpx
    rw [hpr] at this
    simpa [Function.comp] using this
  · intro r' c' hr' hc' hlex
    have hjlt : r' * k + c' < i := by
      rw [← hidx]; exact lex_index_lt hmod hc' hlex
    have := hjs _ hjlt
    rw [getD_anchors hr' hc'] at this
    simpa [Function.comp] using this

theorem windows_find?_eq_some {sq : Square} {s : Nat} {w : Mat}
    (h : (windows sq s).find? isSubSquare = some w) :
    ∃ r c, r < sq.size - s + 1 ∧ c < sq.size - s + 1 ∧
      w = subMat sq.matrix.toMat r c s ∧ qualifies sq s r c = true ∧
      ∀ r' c', r' < sq.size - s + 1 → c' < sq.size - s + 1 →
        (r' < r ∨ (r' = r ∧ c' < c)) → qualifies sq s r' c' = false := by
  rw [windows] at h
  obtain ⟨r, c, hr, hc, hx, hq, hmin⟩ := find?_anchors_map_some h
  exact ⟨r, c, hr, hc, hx, hq, fun r' c' hr' hc' hlex =>
    hmin r' c' hr' hc' hlex⟩

/-! ### The descending-size loop -/

theorem searchSizes_succ_eq (sq : Square) (s : Nat) (h1 : s + 1 ≤ sq.size) :
    searchSizes sq (s + 1) =
      match (windows sq (s + 1)).find? isSubSquare with
      | some w => .ok (some (w, s + 1))
      | none => searchSizes sq s := by
  rw [searchSizes, getRollingWindows_eq_ok sq (s + 1) (by omega) h1]

theorem searchSizes_succ_some (sq : Square) (s : Nat) (w : Mat) (h1 : s + 1 ≤ sq.size)
    (hfind : (windows sq (s + 1)).find? isSubSquare = some w) :
    searchSizes sq (s + 1) = .ok (some (w, s + 1)) := by
  rw [searchSizes_succ_eq sq s h1, hfind]

theorem searchSizes_succ_none (sq : Square) (s : Nat) (h1 : s + 1 ≤ sq.size)
    (hfind : (windows sq (s + 1)).find? isSubSquare = none) :
    searchSizes sq (s + 1) = searchSizes sq s := by
  rw [searchSizes_succ_eq sq s h1, hfind]

theorem searchSizes_isOk (sq : Square) :
    ∀ s, s ≤ sq.size → ∃ o, searchSizes sq s = .ok o := by
  intro s
  induction s with
  | zero => exact fun _ => ⟨none, rfl⟩
  | succ s ih =>
    intro hs
    cases hfind : (windows sq (s + 1)).find? isSubSquare with
    | some w => exact ⟨some (w, s + 1), searchSizes_succ_some sq s w hs hfind⟩
    | none =>
      obtain ⟨o, ho⟩ := ih (by omega)
      exact ⟨o, by rw [searchSizes_succ_none sq s hs hfind]; exact ho⟩

theorem searchSizes_none_iff (sq : Square) :
    ∀ s, s ≤ sq.size →
      (searchSizes sq s = .ok none ↔
        ∀ s', 1 ≤ s' → s' ≤ s → (windows sq s').find? isSubSquare = none) := by
  intro s
  induction s with
  | zero =>
    intro _
    constructor
    · intro _ s' h1 h2; omega
    · intro _; rfl
  | succ s ih =>
    intro hs
    cases hfind : (windows sq (s + 1)).find? isSubSquare with
    | some w =>
      rw [searchSizes_succ_some sq s w hs hfind]
      constructor
      · intro h; exact absurd h (by simp)
      · intro h
        have := h (s + 1) (by omega) (by omega)
        rw [hfind] at this
        exact absurd this (by simp)
    | none =>
      rw [searchSizes_succ_none sq s hs hfind, ih (by omega)]
      constructor
      · intro h s' h1 h2
        rcases Nat.lt_or_ge s' (s + 1) with hlt | hge
        · exact h s' h1 (by omega)
        · have : s' = s + 1 := by omega
          rw [this]; exact hfind
      · intro h s' h1 h2
        exact h s' h1 (by omega)

theorem searchSizes_some_spec (sq : Square) :
    ∀ s, s ≤ sq.size → ∀ w s₀, searchSizes sq s = .ok (some (w, s₀)) →
      1 ≤ s₀ ∧ s₀ ≤ s ∧ (windows sq s₀).find? isSubSquare = some w ∧
        ∀ s', s₀ < s' → s' ≤ s → (windows sq s').find? isSubSquare = none := by
  intro s
  induction s with
  | zero =>
    intro _ w s₀ h
    exact absurd h (by rw [searchSizes]; simp)
  | succ s ih =>
    intro hs w s₀ h
    cases hfind : (windows sq (s + 1)).find? isSubSquare with
    | some w' =>
      rw [searchSizes_succ_some sq s w' hs hfind] at h
      obtain ⟨hw, hs₀⟩ : w' = w ∧ s + 1 = s₀ := by
        constructor
        · exact (Prod.mk.inj (Option.some.inj (Except.ok.inj h))).1
        · exact (Prod.mk.inj (Option.some.inj (Except.ok.inj h))).2
      refine ⟨by omega, by omega, ?_, ?_⟩
      · rw [← hs₀, hfind, hw]
      · intro s' hlt hle; omega
    | none =>
      rw [searchSizes_succ_none sq s hs hfind] at h
      obtain ⟨h1, h2, h3, h4⟩ := ih (by omega) w s₀ h
      refine ⟨h1, by omega, h3, ?_⟩
      intro s' hlt hle
      rcases Nat.lt_or_ge s' (s + 1) with hlt' | hge
      · exact h4 s' hlt (by omega)
      · have : s' = s + 1 := by omega
        rw [this]; exact hfind

/-- Full success characterization of the search: if any placement
qualifies, the call returns the window at the largest qualifying size,
with the row-major-first anchor among that size's qualifying placements. -/
theorem findLargest_found (sq : Square)
    (hex : ∃ s r c, 1 ≤ s ∧ s ≤ sq.size ∧ r + s ≤ sq.size ∧ c + s ≤ sq.size ∧
      qualifies sq s r c = true) :
    ∃ s₀ r₀ c₀,
      1 ≤ s₀ ∧ s₀ ≤ sq.size ∧ r₀ + s₀ ≤ sq.size ∧ c₀ + s₀ ≤ sq.size ∧
      qualifies sq s₀ r₀ c₀ = true ∧
      findLargestSubSquare (.square sq) = .ok (subMat sq.matrix.toMat r₀ c₀ s₀, s₀) ∧
      (∀ s r c, 1 ≤ s → s ≤ sq.size → r + s ≤ sq.size → c + s ≤ sq.size →
        qualifies sq s r c = true → s ≤ s₀) ∧
      (∀ r c, r + s₀ ≤ sq.size → c + s₀ ≤ sq.size → qualifies sq s₀ r c = true →
        r₀ < r ∨ (r₀ = r ∧ c₀ ≤ c)) := by
  obtain ⟨s, r, c, hs1, hsn, hrs, hcs, hq⟩ := hex
  obtain ⟨o, ho⟩ := searchSizes_isOk sq sq.size (le_refl _)
  cases o with
  | none =>
    exfalso
    have hall := (searchSizes_none_iff sq sq.size (le_refl _)).mp ho
    have hnone := hall s hs1 hsn
    have := windows_find?_eq_none_iff.mp hnone r c (by omega) (by omega)
    rw [hq] at this
    exact absurd this (by simp)
  | some p =>
    rcases p with ⟨w, s₀⟩
    obtain ⟨h1, h2, hsome, hlarger⟩ :=
      searchSizes_some_spec sq sq.size (le_refl _) w s₀ ho
    obtain ⟨r₀, c₀, hr₀, hc₀, hweq, hq₀, hmin⟩ := windows_find?_eq_some hsome
    refine ⟨s₀, r₀, c₀, h1, h2, by omega, by omega, hq₀, ?_, ?_, ?_⟩
    · rw [findLargestSubSquare, ho, hweq]
    · intro s' r' c' h1' h2' hr' hc' hq'
      by_contra hgt
      have hnone := hlarger s' (by omega) h2'
      have := windows_find?_eq_none_iff.mp hnone r' c' (by omega) (by omega)
      rw [hq'] at this
      exact absurd this (by simp)
    · intro r' c' hr' hc' hq'
      by_contra hlex
      push_neg at hlex
      have hlex' : r' < r₀ ∨ (r' = r₀ ∧ c' < c₀) := by
        rcases Nat.lt_trichotomy r' r₀ with h | h | h
        · exact Or.inl h
        · exact Or.inr ⟨h, by omega⟩
        · exact absurd h (by omega)
      have := hmin r' c' (by omega) (by omega) hlex'
      rw [hq'] at this
      exact absurd this (by simp)

/-- Failure characterization: the call raises `SubSquareDNEError`
carrying the matrix exactly when no placement of any legal size has an
all-ones perimeter. -/
theorem findLargest_dne_iff (sq : Square) :
    findLargestSubSquare (.square sq) = .error (.subSquareDNE sq.matrix) ↔
      ∀ s r c, 1 ≤ s → s ≤ sq.size → r + s ≤ sq.size → c + s ≤ sq.size →
        qualifies sq s r c = false := by
  obtain ⟨o, ho⟩ := searchSizes_isOk sq sq.size (le_refl _)
  constructor
  · intro h s r c hs1 hsn hrs hcs
    cases o with
    | some p =>
      rcases p with ⟨w, s₀⟩
      rw [findLargestSubSquare, ho] at h
      exact absurd h (by simp)
    | none =>
      have hall := (searchSizes_none_iff sq sq.size (le_refl _)).mp ho
      exact windows_find?_eq_none_iff.mp (hall s hs1 hsn) r c (by omega) (by omega)
  · intro h
    cases o with
    | some p =>
      rcases p with ⟨w, s₀⟩
      exfalso
      obtain ⟨h1, h2, hsome, _⟩ :=
        searchSizes_some_spec sq sq.size (le_refl _) w s₀ ho
      obtain ⟨r₀, c₀, hr₀, hc₀, _, hq₀, _⟩ := windows_find?_eq_some hsome
      have := h s₀ r₀ c₀ h1 h2 (by omega) (by omega)
      rw [hq₀] at this
      exact absurd this (by simp)
    | none =>
      rw [findLargestSubSquare, ho]

/-! ### Validated grids: shape and cell access -/

theorem valid_shape (sq : Square) (hv : sq.valid = true) :
    sq.matrix.shape = [sq.size, sq.size] ∧
      sq.matrix.data.length = sq.size * sq.size := by
  rcases sq with ⟨⟨shp, data⟩⟩
  simp only [Square.valid, NDArray.wf, NDArray.ndim, Bool.and_eq_true, beq_iff_eq,
    List.all_eq_true] at hv
  obtain ⟨⟨⟨hwf, hndim⟩, hsq⟩, _⟩ := hv
  match shp, hndim with
  | [a, b], _ =>
    simp only [List.getD_cons_zero, List.getD_cons_succ] at hsq
    subst hsq
    refine ⟨rfl, ?_⟩
    simpa [Square.size, Nat.mul_comm] using hwf

theorem toMat_length (sq : Square) (hv : sq.valid = true) :
    sq.matrix.toMat.length = sq.size := by
  obtain ⟨hshape, _⟩ := valid_shape sq hv
  rw [NDArray.toMat, hshape]
  simp only [List.getD_cons_zero, List.length_map, List.length_range]

theorem toMat_row_length (sq : Square) (hv : sq.valid = true) :
    ∀ row ∈ sq.matrix.toMat, row.length = sq.size := by
  obtain ⟨hshape, hdata⟩ := valid_shape sq hv
  intro row hrow
  rw [NDArray.toMat] at hrow
  obtain ⟨i, hi, rfl⟩ := List.mem_map.mp hrow
  rw [List.mem_range] at hi
  rw [hshape] at hi
  simp only [List.getD_cons_zero, List.getD_cons_succ] at hi
  rw [NDArray.row, hshape]
  simp only [List.getD_cons_zero, List.getD_cons_succ]
  rw [List.length_take, List.length_drop, hdata]
  have h1 : sq.size ≤ sq.size * sq.size - i * sq.size := by
    rw [← Nat.sub_mul]
    exact Nat.le_mul_of_pos_left _ (by omega)
  omega

theorem subMat_length {m : Mat} {n r c s : Nat} (hM : m.length = n)
    (hr : r + s ≤ n) : (subMat m r c s).length = s := by
  rw [subMat, List.length_map, List.length_take, List.length_drop, hM]
  omega

theorem subMat_row_length {m : Mat} {n r c s : Nat}
    (hrows : ∀ row ∈ m, row.length = n) (hc : c + s ≤ n) :
    ∀ row ∈ subMat m r c s, row.length = s := by
  intro row hrow
  rw [subMat] at hrow
  obtain ⟨row₀, hrow₀, rfl⟩ := List.mem_map.mp hrow
  have : row₀ ∈ m := List.mem_of_mem_drop (List.mem_of_mem_take hrow₀)
  rw [List.length_take, List.length_drop, hrows row₀ this]
  omega

theorem getD_drop_take {α : Type} (l : List α) (i s : Nat) (d : α)
    (hi : i < l.length) (hs : 1 ≤ s) :
    ((l.drop i).take s).getD 0 d = l.getD i d := by
  rw [List.drop_eq_getElem_cons hi]
  cases s with
  | zero => omega
  | succ s => rw [List.take_succ_cons, List.getD_cons_zero, List.getD_eq_getElem _ _ hi]

/-- The top-left cell of a qualifying window is a `1`-cell of the grid. -/
theorem qualifies_cell_one (sq : Square) (hv : sq.valid = true) (s r c : Nat)
    (hs : 1 ≤ s) (hr : r + s ≤ sq.size) (hc : c + s ≤ sq.size)
    (hq : qualifies sq s r c = true) :
    cell sq.matrix.toMat r c = 1 := by
  have hlen := toMat_length sq hv
  have hrowlen := toMat_row_length sq hv
  set M := sq.matrix.toMat with hM
  have hrM : r < M.length := by omega
  rw [qualifies, isSubSquare] at hq
  simp only [List.all_append, Bool.and_eq_true] at hq
  obtain ⟨⟨⟨htop, _⟩, _⟩, _⟩ := hq
  have hmap : subMat M r c s = ((M.drop r).take s).map fun row => (row.drop c).take s := rfl
  have hnonempty : 0 < ((M.drop r).take s).length := by
    rw [List.length_take, List.length_drop]; omega
  have hhead : (subMat M r c s).headD [] =
      ((((M.drop r).take s).getD 0 []).drop c).take s := by
    rw [hmap, headD_eq_getD, getD_map_of_lt _ _ _ _ [] hnonempty]
  rw [hhead, getD_drop_take M r s [] hrM hs] at htop
  have hrowmem : M.getD r [] ∈ M := by
    rw [List.getD_eq_getElem _ _ hrM]; exact List.getElem_mem _
  have hrowl : (M.getD r []).length = sq.size := hrowlen _ hrowmem
  have hcM : c < (M.getD r []).length := by omega
  have := (all_one_iff_getD _).mp htop 0 (by
    rw [List.length_take, List.length_drop]; omega)
  rwa [getD_drop_take _ c s 0 hcM hs] at this

theorem isSubSquare_singleton (x : Int) : isSubSquare [[x]] = true ↔ x = 1 := by
  simp [isSubSquare]

/-- A `1`-cell of the grid gives a qualifying placement of size `1`. -/
theorem cell_one_qualifies (sq : Square) (hv : sq.valid = true) (i j : Nat)
    (hi : i < sq.size) (hj : j < sq.size)
    (h1 : cell sq.matrix.toMat i j = 1) :
    qualifies sq 1 i j = true := by
  have hlen := toMat_length sq hv
  have hrowlen := toMat_row_length sq hv
  set M := sq.matrix.toMat with hM
  have hiM : i < M.length := by omega
  have hrowmem : M.getD i [] ∈ M := by
    rw [List.getD_eq_getElem _ _ hiM]; exact List.getElem_mem _
  have hjM : j < (M.getD i []).length := by rw [hrowlen _ hrowmem]; omega
  have hsub : subMat M i j 1 = [[cell M i j]] := by
    rw [subMat, List.drop_eq_getElem_cons hiM, List.take_succ_cons, List.take_zero,
      List.map_cons, List.map_nil]
    congr 1
    rw [← List.getD_eq_getElem M [] hiM]
    rw [List.drop_eq_getElem_cons hjM, List.take_succ_cons, List.take_zero]
    rw [cell, List.getD_eq_getElem _ _ hjM]
  rw [qualifies, hsub]
  exact (isSubSquare_singleton _).mpr h1

/-! ### The perimeter predicate, cell by cell -/

theorem interior_getD (M : Mat) (m : Nat) (hM : M.length = m) (t : Nat)
    (ht : t < m - 2) : ((M.drop 1).dropLast).getD t [] = M.getD (1 + t) [] := by
  have hL : ((M.drop 1).dropLast).length = m - 2 := by
    rw [List.length_dropLast, List.length_drop, hM]; omega
  have ht' : t < (M.drop 1).dropLast.length := by omega
  have ht'' : 1 + t < M.length := by omega
  rw [List.getD_eq_getElem _ _ ht', List.getElem_dropLast, List.getElem_drop,
    List.getD_eq_getElem _ _ ht'']

theorem isSubSquare_size_one (M : Mat) (hM : M.length = 1)
    (hrows : ∀ row ∈ M, row.length = 1) :
    isSubSquare M = true ↔ cell M 0 0 = 1 := by
  match M, hM with
  | [row], _ =>
    have hr : row.length = 1 := hrows row (by simp)
    match row, hr with
    | [x], _ =>
      rw [show cell [[x]] 0 0 = x from rfl]
      exact isSubSquare_singleton x

theorem isSubSquare_iff_cells (M : Mat) (m : Nat) (hm : 2 ≤ m) (hM : M.length = m)
    (hrows : ∀ row ∈ M, row.length = m) :
    isSubSquare M = true ↔ ∀ i j, i < m → j < m →
      (i = 0 ∨ i = m - 1 ∨ j = 0 ∨ j = m - 1) → cell M i j = 1 := by
  have h0 : 0 < M.length := by omega
  have hlast : m - 1 < M.length := by omega
  have hrow0 : M.getD 0 [] ∈ M := by
    rw [List.getD_eq_getElem _ _ h0]; exact List.getElem_mem _
  have hrowlast : M.getD (m - 1) [] ∈ M := by
    rw [List.getD_eq_getElem _ _ hlast]; exact List.getElem_mem _
  have hrow0len : (M.getD 0 []).length = m := hrows _ hrow0
  have hrowlastlen : (M.getD (m - 1) []).length = m := hrows _ hrowlast
  have hL : ((M.drop 1).dropLast).length = m - 2 := by
    rw [List.length_dropLast, List.length_drop, hM]; omega
  have hmemi : ∀ t, t < m - 2 → M.getD (1 + t) [] ∈ M := by
    intro t ht
    have h1t : 1 + t < M.length := by omega
    rw [List.getD_eq_getElem _ _ h1t]; exact List.getElem_mem _
  have hleftD : ∀ t, t < m - 2 →
      (((M.drop 1).dropLast).map fun row => row.headD 0).getD t 0 =
        cell M (1 + t) 0 := by
    intro t ht
    rw [getD_map_of_lt _ _ _ _ [] (by omega), interior_getD M m hM t ht,
      headD_eq_getD, cell]
  have hrightD : ∀ t, t < m - 2 →
      (((M.drop 1).dropLast).map fun row => row.getLastD 0).getD t 0 =
        cell M (1 + t) (m - 1) := by
    intro t ht
    rw [getD_map_of_lt _ _ _ _ [] (by omega), interior_getD M m hM t ht,
      getLastD_eq_getD, hrows _ (hmemi t ht), cell]
  rw [isSubSquare]
  simp only [List.all_append, Bool.and_eq_true]
  rw [headD_eq_getD, getLastD_eq_getD, hM]
  rw [all_one_iff_getD, all_one_iff_getD, all_one_iff_getD, all_one_iff_getD]
  simp only [List.length_map, hL, hrow0len, hrowlastlen]
  constructor
  · rintro ⟨⟨⟨htop, hbot⟩, hleft⟩, hright⟩ i j hi hj hper
    rcases hper with rfl | rfl | rfl | rfl
    · exact htop j hj
    · exact hbot j hj
    · rcases Nat.eq_zero_or_pos i with rfl | hipos
      · exact htop 0 (by omega)
      · rcases Nat.lt_or_ge i (m - 1) with hilt | hige
        · have ht : i - 1 < m - 2 := by omega
          have := hleft (i - 1) ht
          rw [hleftD (i - 1) ht] at this
          rwa [show 1 + (i - 1) = i by omega] at this
        · have : i = m - 1 := by omega
          rw [this]
          exact hbot 0 (by omega)
    · rcases Nat.eq_zero_or_pos i with rfl | hipos
      · exact htop (m - 1) (by omega)
      · rcases Nat.lt_or_ge i (m - 1) with hilt | hige
        · have ht : i - 1 < m - 2 := by omega
          have := hright (i - 1) ht
          rw [hrightD (i - 1) ht] at this
          rwa [show 1 + (i - 1) = i by omega] at this
        · have : i = m - 1 := by omega
          rw [this]
          exact hbot (m - 1) (by omega)
  · intro h
    refine ⟨⟨⟨?_, ?_⟩, ?_⟩, ?_⟩
    · intro j hj
      exact h 0 j (by omega) hj (Or.inl rfl)
    · intro j hj
      exact h (m - 1) j (by omega) hj (Or.inr (Or.inl rfl))
    · intro t ht
      rw [hleftD t ht]
      exact h (1 + t) 0 (by omega) (by omega) (Or.inr (Or.inr (Or.inl rfl)))
    · intro t ht
      rw [hrightD t ht]
      exact h (1 + t) (m - 1) (by omega) (by omega) (Or.inr (Or.inr (Or.inr rfl)))

/-! ### Claim theorems -/

/-- C1: on every valid Grid with at least one all-ones-perimeter
placement, `find_largest_sub_square` returns the window extracted at a
qualifying placement whose size is maximal among qualifying placements
and whose anchor is row-major-first (top-most, then left-most) among the
qualifying placements of that size; in particular on the grid
`[[0,1,1],[0,1,1],[1,1,1]]` it returns size 2 and matrix `[[1,1],[1,1]]`,
the block anchored at `(0, 1)`. -/
theorem claim_C1_first_match (sq : Square) (_hv : sq.valid = true)
    (hex : ∃ s r c, 1 ≤ s ∧ s ≤ sq.size ∧ r + s ≤ sq.size ∧ c + s ≤ sq.size ∧
      qualifies sq s r c = true) :
    (∃ s₀ r₀ c₀,
      1 ≤ s₀ ∧ s₀ ≤ sq.size ∧ r₀ + s₀ ≤ sq.size ∧ c₀ + s₀ ≤ sq.size ∧
      qualifies sq s₀ r₀ c₀ = true ∧
      findLargestSubSquare (.square sq) = .ok (subMat sq.matrix.toMat r₀ c₀ s₀, s₀) ∧
      (∀ s r c, 1 ≤ s → s ≤ sq.size → r + s ≤ sq.size → c + s ≤ sq.size →
        qualifies sq s r c = true → s ≤ s₀) ∧
      (∀ r c, r + s₀ ≤ sq.size → c + s₀ ≤ sq.size → qualifies sq s₀ r c = true →
        r₀ < r ∨ (r₀ = r ∧ c₀ ≤ c))) ∧
    findLargestSubSquare (.square exampleSquare) = .ok ([[1, 1], [1, 1]], 2) ∧
    subMat exampleSquare.matrix.toMat 0 1 2 = [[1, 1], [1, 1]] :=
  ⟨findLargest_found sq hex, by decide, by decide⟩

/-- Witness for C1 at the example grid. -/
theorem claim_C1_witness :
    findLargestSubSquare (.square exampleSquare) = .ok ([[1, 1], [1, 1]], 2) :=
  (claim_C1_first_match exampleSquare (by decide)
    ⟨2, 0, 1, by decide, by decide, by decide, by decide, by decide⟩).2.1

/-- C2: for every square matrix of side `m ≥ 1` with binary entries,
`_is_sub_square` is true for `m = 1` iff the single cell is 1, and for
`m ≥ 2` iff every cell of row 0, row `m-1`, column 0 and column `m-1`
equals 1 (the `[1:-1]` side slices are empty at `m = 1` and `m = 2`,
which these two cases cover). -/
theorem claim_C2_perimeter (M : Mat) (m : Nat) (hM : M.length = m)
    (hrows : ∀ row ∈ M, row.length = m)
    (_hbin : ∀ row ∈ M, ∀ x ∈ row, x = 0 ∨ x = 1) (_hm : 1 ≤ m) :
    (m = 1 → (isSubSquare M = true ↔ cell M 0 0 = 1)) ∧
    (2 ≤ m → (isSubSquare M = true ↔ ∀ i j, i < m → j < m →
      (i = 0 ∨ i = m - 1 ∨ j = 0 ∨ j = m - 1) → cell M i j = 1)) := by
  constructor
  · rintro rfl
    exact isSubSquare_size_one M hM hrows
  · intro h2
    exact isSubSquare_iff_cells M m h2 hM hrows

/-- Witness for C2 at the 2×2 all-ones matrix. -/
theorem claim_C2_witness :
    isSubSquare [[1, 1], [1, 1]] = true ↔ ∀ i j, i < 2 → j < 2 →
      (i = 0 ∨ i = 2 - 1 ∨ j = 0 ∨ j = 2 - 1) → cell [[1, 1], [1, 1]] i j = 1 :=
  (claim_C2_perimeter [[1, 1], [1, 1]] 2 (by decide) (by decide) (by decide)
    (by decide)).2 (by decide)

/-- C3: for every valid Grid and size with `1 ≤ size ≤ n`,
`_get_rolling_windows` yields exactly `(n - size + 1)^2` windows, the
window at list position `r * (n - size + 1) + c` being the
`size × size` extraction anchored at `(r, c)` — row-major anchor
order, rows of each window of length `size`. -/
theorem claim_C3_enumeration (sq : Square) (s : Nat) (hv : sq.valid = true)
    (h1 : 1 ≤ s) (h2 : s ≤ sq.size) :
    ∃ ws, getRollingWindows sq s = .ok ws ∧
      ws.length = (sq.size - s + 1) ^ 2 ∧
      ∀ r c, r < sq.size - s + 1 → c < sq.size - s + 1 →
        ws.getD (r * (sq.size - s + 1) + c) [] = subMat sq.matrix.toMat r c s ∧
        (subMat sq.matrix.toMat r c s).length = s ∧
        ∀ row ∈ subMat sq.matrix.toMat r c s, row.length = s := by
  refine ⟨windows sq s, getRollingWindows_eq_ok sq s h1 h2, ?_, ?_⟩
  · rw [windows, List.length_map, length_anchors, pow_two]
  · intro r c hr hc
    refine ⟨?_, ?_, ?_⟩
    · rw [windows, getD_map_of_lt _ _ _ _ (0, 0) (by
        rw [length_anchors]
        have h3 := Nat.mul_le_mul_right (sq.size - s + 1)
          (show r + 1 ≤ sq.size - s + 1 by omega)
        rw [Nat.succ_mul] at h3
        omega)]
      rw [getD_anchors hr hc]
    · exact subMat_length (toMat_length sq hv) (by omega)
    · exact subMat_row_length (toMat_row_length sq hv) (by omega)

/-- Witness for C3 on the example grid at size 2. -/
theorem claim_C3_witness :
    ∃ ws, getRollingWindows exampleSquare 2 = .ok ws ∧
      ws.length = (exampleSquare.size - 2 + 1) ^ 2 ∧
      ∀ r c, r < exampleSquare.size - 2 + 1 → c < exampleSquare.size - 2 + 1 →
        ws.getD (r * (exampleSquare.size - 2 + 1) + c) [] =
          subMat exampleSquare.matrix.toMat r c 2 ∧
        (subMat exampleSquare.matrix.toMat r c 2).length = 2 ∧
        ∀ row ∈ subMat exampleSquare.matrix.toMat r c 2, row.length = 2 :=
  claim_C3_enumeration exampleSquare 2 (by decide) (by decide) (by decide)

/-- C4: on a valid Grid, `find_largest_sub_square` raises
`SubSquareDNEError` (carrying the matrix, no partial result) iff no
placement of any legal size qualifies, which holds iff no cell of the
grid equals 1; in particular the all-zero 3×3 grid fails this way. -/
theorem claim_C4_not_found (sq : Square) (hv : sq.valid = true) :
    (findLargestSubSquare (.square sq) = .error (.subSquareDNE sq.matrix) ↔
      ∀ s r c, 1 ≤ s → s ≤ sq.size → r + s ≤ sq.size → c + s ≤ sq.size →
        qualifies sq s r c = false) ∧
    ((∀ s r c, 1 ≤ s → s ≤ sq.size → r + s ≤ sq.size → c + s ≤ sq.size →
        qualifies sq s r c = false) ↔
      ∀ i j, i < sq.size → j < sq.size → cell sq.matrix.toMat i j ≠ 1) ∧
    findLargestSubSquare (.square zeroSquare) = .error (.subSquareDNE zeroArray) := by
  refine ⟨findLargest_dne_iff sq, ⟨?_, ?_⟩, by decide⟩
  · intro h i j hi hj hcell
    have := h 1 i j (by omega) (by omega) (by omega) (by omega)
    rw [cell_one_qualifies sq hv i j hi hj hcell] at this
    exact absurd this (by simp)
  · intro h s r c h1 h2 hr hc
    by_contra hq
    rw [Bool.not_eq_false] at hq
    have hcell := qualifies_cell_one sq hv s r c h1 hr hc hq
    exact h r c (by omega) (by omega) hcell

/-- Witness for C4 at the all-zero grid. -/
theorem claim_C4_witness :
    findLargestSubSquare (.square zeroSquare) = .error (.subSquareDNE zeroArray) :=
  (claim_C4_not_found zeroSquare (by decide)).2.2

/-- The notebook test's non-2-dimensional input `np.zeros((3, 3, 3))`. -/
def threeDZeros : NDArray := ⟨[3, 3, 3], List.replicate 27 0⟩

/-- C5 counterexample: on a non-2-dimensional input the constructor
raises `ValueError("Matrix must be 2-dimensional.")` — the very
`ValueError` class the claim reserves for non-binary values — so no
distinct `ShapeError`-class failure occurs. -/
theorem claim_C5_counterexample :
    mkSquare (.array threeDZeros) =
      .error (.valueError "Matrix must be 2-dimensional.") ∧
    ¬ ∃ e, mkSquare (.array threeDZeros) = .error e ∧ e.isValueError = false := by
  have h : mkSquare (.array threeDZeros) =
      .error (.valueError "Matrix must be 2-dimensional.") := by decide
  refine ⟨h, ?_⟩
  rintro ⟨e, he, hve⟩
  rw [h] at he
  obtain rfl := Except.error.inj he
  simp [PyError.isValueError] at hve

/-- C5 amended: constructing a Grid from a non-2-dimensional or
non-square ndarray fails at construction time with `ValueError` — the
same class used for non-binary values; no distinct ShapeError exists. -/
theorem claim_C5_amended_thm (a : NDArray)
    (h : a.ndim ≠ 2 ∨ a.shape.getD 0 0 ≠ a.shape.getD 1 0) :
    ∃ msg, mkSquare (.array a) = .error (.valueError msg) := by
  show ∃ msg, (if a.ndim ≠ 2 then
      (.error (.valueError "Matrix must be 2-dimensional.") : Except PyError Square)
    else if a.shape.getD 0 0 ≠ a.shape.getD 1 0 then
      .error (.valueError "Matrix must be square (equal number of rows and columns).")
    else if ¬ (a.data.all fun x => x == 0 || x == 1) then
      .error (.valueError "Matrix elements must be either 0s or 1s.")
    else .ok ⟨a⟩) = .error (.valueError msg)
  by_cases h2 : a.ndim ≠ 2
  · rw [if_pos h2]; exact ⟨_, rfl⟩
  · rw [if_neg h2]
    have hsq : a.shape.getD 0 0 ≠ a.shape.getD 1 0 := by tauto
    rw [if_pos hsq]; exact ⟨_, rfl⟩

/-- Witness for the amended C5 at the non-square `2×3` zero matrix. -/
theorem claim_C5_witness :
    ∃ msg, mkSquare (.array ⟨[2, 3], [0, 0, 0, 0, 0, 0]⟩) =
      .error (.valueError msg) :=
  claim_C5_amended_thm ⟨[2, 3], [0, 0, 0, 0, 0, 0]⟩ (by decide)

/-- C6: on a valid Grid, `_get_rolling_windows` with `size > n` or
`size < 1` fails with `ValueError` and yields no window. -/
theorem claim_C6_invalid_size (sq : Square) (s : Nat) (_hv : sq.valid = true)
    (h : s > sq.size ∨ s < 1) :
    getRollingWindows sq s = .error (.valueError
      "Sub Square Size must be less than or equal to the size of the square and greater than 0") := by
  rw [getRollingWindows]
  rw [if_pos (by simp; omega)]

/-- Witness for C6 at size 4 on the 3×3 example grid. -/
theorem claim_C6_witness :
    getRollingWindows exampleSquare 4 = .error (.valueError
      "Sub Square Size must be less than or equal to the size of the square and greater than 0") :=
  claim_C6_invalid_size exampleSquare 4 (by decide) (by decide)

/-- C7: `find_largest_sub_square` on any non-`Square` value fails with
`TypeError` immediately — by the shape of the definition, before any
enumeration or perimeter test is evaluated — and never coerces. -/
theorem claim_C7_type_error (v : PyVal) :
    findLargestSubSquare (.notSquare v) = .error .typeError := rfl

/-- C8: if a valid Grid has a qualifying placement of size `k`, the
search succeeds and returns a size of at least `k`. -/
theorem claim_C8_monotonic (sq : Square) (k r c : Nat) (_hv : sq.valid = true)
    (h1 : 1 ≤ k) (h2 : k ≤ sq.size) (hr : r + k ≤ sq.size) (hc : c + k ≤ sq.size)
    (hq : qualifies sq k r c = true) :
    ∃ w s, findLargestSubSquare (.square sq) = .ok (w, s) ∧ k ≤ s := by
  obtain ⟨s₀, r₀, c₀, _, _, _, _, _, heq, hmax, _⟩ :=
    findLargest_found sq ⟨k, r, c, h1, h2, hr, hc, hq⟩
  exact ⟨_, s₀, heq, hmax k r c h1 h2 hr hc hq⟩

/-- Witness for C8 at the example grid with `k = 2`. -/
theorem claim_C8_witness :
    ∃ w s, findLargestSubSquare (.square exampleSquare) = .ok (w, s) ∧ 2 ≤ s :=
  claim_C8_monotonic exampleSquare 2 0 1 (by decide) (by decide) (by decide)
    (by decide) (by decide) (by decide)

/-- C9: the search is deterministic and effect-free — its result is a
function of the grid's matrix alone, so two calls on the same or an
equal Grid give identical results, and (the embedding being a pure
function of an immutable value, as in the source, which never writes to
`square.matrix`) the grid is unchanged. -/
theorem claim_C9_deterministic (sq₁ sq₂ : Square) (h : sq₁.matrix = sq₂.matrix) :
    findLargestSubSquare (.square sq₁) = findLargestSubSquare (.square sq₂) ∧
    findLargestSubSquare (.square sq₁) = findLargestSubSquare (.square sq₁) := by
  rcases sq₁ with ⟨m₁⟩
  rcases sq₂ with ⟨m₂⟩
  cases h
  exact ⟨rfl, rfl⟩

/-- Witness for C9 at the example grid. -/
theorem claim_C9_witness :
    findLargestSubSquare (.square exampleSquare) =
      findLargestSubSquare (.square exampleSquare) :=
  (claim_C9_deterministic exampleSquare exampleSquare rfl).1

/-- C10: constructing a `Square` from a value that is not an ndarray —
`None` or a nested Python list — fails with `TypeError`; since the
result is `TypeError` and not any `ValueError`, the `isinstance` check
fires before the shape and element checks. -/
theorem claim_C10_non_array (v : PyVal)
    (h : v = .pyNone ∨ ∃ rows, v = .pyList rows) :
    mkSquare v = .error .typeError := by
  rcases h with rfl | ⟨rows, rfl⟩ <;> rfl

/-- Witness for C10 at `None`. -/
theorem claim_C10_witness : mkSquare .pyNone = .error .typeError :=
  claim_C10_non_array .pyNone (Or.inl rfl)

end SubSquareImpl
